import Mathlib

/-!
Shallow embedding of `better-bus-buffers/sqlize_csv.py` (a GTFS CSV to
SQLite loading pipeline) and verification of its specification.

Rows and headers are modelled as `List String`.  Python's uniform abort
signal (`BBB_SharedFunctions.CustomError`, raised after `arcpy.AddError(msg)`)
is modelled as `Except.error (PyErr.custom msg)`; other Python runtime errors
that the pipeline can hit are modelled by dedicated `PyErr` constructors.
-/

namespace Sqlize

/-- Errors a pipeline step can raise.  `custom msg` is the uniform abort
signal (`CustomError` preceded by `arcpy.AddError msg`); `indexError` models a
Python `IndexError` from an out-of-range list subscript; `nameError` models a
Python `UnboundLocalError`/`NameError` from reading a never-assigned local. -/
inductive PyErr where
  | custom (msg : String)
  | indexError
  | nameError
deriving DecidableEq, Repr

/-- Python `str.strip()` on the whitespace characters Lean knows
(space, tab, CR, LF): drop leading and trailing whitespace. -/
def pyStrip (s : String) : String :=
  String.mk (((s.data.dropWhile Char.isWhitespace).reverse.dropWhile Char.isWhitespace).reverse)

/-- `re.sub("[^A-Za-z0-9]", "", service)` (sqlize_csv.py line 146): keep only
ASCII letters and digits of the label. -/
def sanitizeLabel (service : String) : String :=
  String.mk (service.data.filter Char.isAlphanum)

/-- Does the second character list start with the first? -/
def leadMatch : List Char → List Char → Bool
  | [], _ => true
  | _ :: _, [] => false
  | a :: as, b :: bs => a == b && leadMatch as bs

/-- Python `s.endswith(suffix)`. -/
def pyEndsWith (s suffix : String) : Bool :=
  leadMatch suffix.data.reverse s.data.reverse

/-- Indices, counted from `i`, of the list entries satisfying `p`: the
`for idx,field in enumerate(columns)` accumulation pattern of lines 148-151
and 169-171. -/
def idxWhere (p : String → Bool) (i : Nat) : List String → List Nat
  | [] => []
  | c :: cs => if p c then i :: idxWhere p (i + 1) cs else idxWhere p (i + 1) cs

/-- The `field.endswith("_id") and field != "direction_id"` test of
line 150. -/
def isIdCol (c : String) : Bool := pyEndsWith c "_id" && c != "direction_id"

/-- The set `s` of lines 148-151: indices of the identifier columns. -/
def idColIdxs (columns : List String) : List Nat := idxWhere isIdCol 0 columns

/-- The effect of `for idx in s: ret[idx] = "%s:%s" % (service, row[idx].strip())`
(lines 153-156), expressed positionally: position `i` (counted from the given
offset) is rewritten when `i` is in the index set. -/
def applyLabels (label : String) (s : List Nat) (i : Nat) : List String → List String
  | [] => []
  | v :: vs =>
    (if i ∈ s then label ++ ":" ++ pyStrip v else v) :: applyLabels label s (i + 1) vs

/-- `make_add_agency_labels` (lines 143-158), with the built closure already
applied to a row.  The label is sanitized once, in the outer function.  In
Python, `ret[idx]` raises `IndexError` when the row is shorter than an
identifier-column index; that is the `.error .indexError` branch. -/
def make_add_agency_labels (service : String) (columns : List String)
    (row : List String) : Except PyErr (List String) :=
  let service := sanitizeLabel service
  let s := idColIdxs columns
  if s.all (fun idx => idx < row.length) then
    .ok (applyLabels service s 0 row)
  else .error .indexError

/-- SQL column datatypes of `sql_types` (lines 48-52). -/
inductive SType where
  | text
  | integer
  | real
deriving DecidableEq, Repr

/-- The `is_required` slot of a schema entry: `True`, or a default value. -/
inductive Req where
  | required
  | dflt (v : String)
deriving DecidableEq, Repr

/-- `sql_schema` (lines 58-126): for each table, the ordered column list with
datatype and required/default status. -/
def sql_schema : List (String × List (String × SType × Req)) :=
  [ ("stops",
      [ ("stop_id", .text, .required)
      , ("stop_code", .text, .dflt "NULL")
      , ("stop_name", .text, .required)
      , ("stop_desc", .text, .dflt "NULL")
      , ("stop_lat", .real, .required)
      , ("stop_lon", .real, .required)
      , ("zone_id", .text, .dflt "NULL")
      , ("stop_url", .text, .dflt "NULL")
      , ("location_type", .integer, .dflt "NULL")
      , ("parent_station", .text, .dflt "NULL") ])
  , ("calendar",
      [ ("service_id", .text, .required)
      , ("monday", .integer, .required)
      , ("tuesday", .integer, .required)
      , ("wednesday", .integer, .required)
      , ("thursday", .integer, .required)
      , ("friday", .integer, .required)
      , ("saturday", .integer, .required)
      , ("sunday", .integer, .required)
      , ("start_date", .text, .required)
      , ("end_date", .text, .required) ])
  , ("calendar_dates",
      [ ("service_id", .text, .required)
      , ("date", .text, .required)
      , ("exception_type", .integer, .required) ])
  , ("stop_times",
      [ ("trip_id", .text, .required)
      , ("arrival_time", .real, .required)
      , ("departure_time", .real, .required)
      , ("stop_id", .text, .required)
      , ("stop_sequence", .integer, .required)
      , ("stop_headsign", .text, .dflt "NULL")
      , ("pickup_type", .integer, .dflt "0")
      , ("drop_off_type", .integer, .dflt "0")
      , ("shape_dist_traveled", .real, .dflt "NULL") ])
  , ("trips",
      [ ("route_id", .text, .required)
      , ("service_id", .text, .required)
      , ("trip_id", .text, .required)
      , ("trip_headsign", .text, .dflt "NULL")
      , ("trip_short_name", .text, .dflt "NULL")
      , ("direction_id", .integer, .dflt "NULL")
      , ("block_id", .text, .dflt "NULL")
      , ("shape_id", .text, .dflt "NULL") ])
  , ("routes",
      [ ("route_id", .text, .required)
      , ("agency_id", .text, .dflt "NULL")
      , ("route_short_name", .text, .dflt "NULL")
      , ("route_long_name", .text, .dflt "NULL")
      , ("route_desc", .text, .dflt "NULL")
      , ("route_type", .integer, .required)
      , ("route_url", .text, .dflt "NULL")
      , ("route_color", .text, .dflt "NULL")
      , ("route_text_color", .text, .dflt "NULL") ])
  , ("frequencies",
      [ ("trip_id", .text, .required)
      , ("start_time", .real, .required)
      , ("end_time", .real, .required)
      , ("headway_secs", .integer, .required) ]) ]

/-- The ordered column specification of one table (`sql_schema[tablename]`). -/
def schemaCols (t : String) : List (String × SType × Req) :=
  (((sql_schema.find? (fun p => p.1 == t)).map Prod.snd).getD [])

/-- The column names of one table's schema (Python dict-key membership
`field not in tbl` tests against these). -/
def schemaKeys (t : String) : List String := (schemaCols t).map Prod.fst

/-- The `cols` list of lines 166-171 (before the `reverse`): indices of the
header columns absent from the table's schema (`field not in tbl`). -/
def extraColIdxs (tablename : String) (columns : List String) : List Nat :=
  idxWhere (fun c => !(decide (c ∈ schemaKeys tablename))) 0 columns

/-- `for idx in cols: out_row.pop(idx)` (lines 182-183): erase each listed
position in turn. -/
def popAll (idxs : List Nat) (row : List String) : List String :=
  idxs.foldl List.eraseIdx row

/-- A rendering of a Python list of strings, for the wrong-row-width
message. -/
def pyStrList (l : List String) : String :=
  "[" ++ String.intercalate ", " (l.map (fun s => "'" ++ s ++ "'")) ++ "]"

/-- The message of line 178. -/
def wrongWidthMsg (tablename : String) (columns row : List String) : String :=
  "GTFS table " ++ tablename ++
    " contains at least one row with the wrong number of fields. Fields: " ++
    pyStrList columns ++ "; Row: " ++ pyStrList row

/-- `make_remove_extra_fields` (lines 161-185), with the built `drop_fields`
closure already applied to a row: abort when the row's width differs from the
header's, otherwise pop the extraneous positions in reverse index order. -/
def drop_fields (tablename : String) (columns : List String)
    (row : List String) : Except PyErr (List String) :=
  if row.length ≠ columns.length then
    .error (.custom (wrongWidthMsg tablename columns row))
  else
    .ok (popAll (extraColIdxs tablename columns).reverse row)

/-- The loop of `check_for_required_fields` (lines 190-195) raises at the
first schema column that is required and absent from the header; this returns
that column. -/
def firstMissingRequired : List (String × SType × Req) → List String → Option String
  | [], _ => none
  | (c, _, r) :: rest, columns =>
    if r = Req.required ∧ c ∉ columns then some c
    else firstMissingRequired rest columns

/-- The message of line 193. -/
def requiredFieldMsg (tablename dataset c : String) : String :=
  "GTFS file " ++ tablename ++ ".txt in dataset " ++ dataset ++
    " is missing required field '" ++ c ++ "'. Failed to SQLize GTFS data"

/-- `check_for_required_fields` (lines 188-195). -/
def check_for_required_fields (tablename : String) (columns : List String)
    (dataset : String) : Except PyErr Unit :=
  match firstMissingRequired (schemaCols tablename) columns with
  | some c => .error (.custom (requiredFieldMsg tablename dataset c))
  | none => .ok ()

/-- Two-or-three-character body of the clock-time regex after the optional
sign: `\d?\d:\d\d:\d\d` (line 138), decomposed by list length. -/
def timeBody : List Char → Bool
  | [h1, c1, m1, m2, c2, s1, s2] =>
    h1.isDigit && c1 == ':' && m1.isDigit && m2.isDigit && c2 == ':' &&
      s1.isDigit && s2.isDigit
  | [h1, h2, c1, m1, m2, c2, s1, s2] =>
    h1.isDigit && h2.isDigit && c1 == ':' && m1.isDigit && m2.isDigit &&
      c2 == ':' && s1.isDigit && s2.isDigit
  | _ => false

/-- `check_time_str` (lines 136-140): `re.match('^-?\d?\d:\d\d:\d\d$', s)`,
with `\d` read as an ASCII digit. -/
def check_time_str (s : String) : Bool :=
  match s.data with
  | '-' :: rest => timeBody rest
  | cs => timeBody cs

/-- Value of a digit string, most significant first. -/
def digitsVal (cs : List Char) : Nat :=
  cs.foldl (fun a c => 10 * a + (c.toNat - 48)) 0

/-- Seconds value of an (already sign-stripped) `H:MM:SS` body. -/
def hmsVal (cs : List Char) : ℚ :=
  match List.splitOn ':' cs with
  | [hd, md, sd] => ((3600 * digitsVal hd + 60 * digitsVal md + digitsVal sd : Nat) : ℚ)
  | _ => 0

/-- Modelled from the spec: the external time parser `hms.str2sec` is not in
the repository sources; the spec describes it as "a pure function mapping a
validated `H:MM:SS`-shaped string to an integer count of seconds since
midnight" with `"08:05:00" -> 29100` and `"25:00:00" -> 90000`, and the import
comment shows negative times carry their sign through. -/
def str2sec (s : String) : ℚ :=
  match s.data with
  | '-' :: rest => -(hmsVal rest)
  | cs => hmsVal cs

/-- Longest leading run of ASCII digits, and the remainder. -/
def takeDigits : List Char → List Char × List Char
  | [] => ([], [])
  | c :: cs =>
    if c.isDigit then
      let p := takeDigits cs
      (c :: p.1, p.2)
    else ([], c :: cs)

/-- A non-empty all-digit run, as a number. -/
def parseDigitsNat (cs : List Char) : Option Nat :=
  if cs ≠ [] ∧ cs.all Char.isDigit then some (digitsVal cs) else none

/-- The signed integer after `e`/`E` in a float literal. -/
def parseExpPart : List Char → Option Int
  | '+' :: cs => (parseDigitsNat cs).map Int.ofNat
  | '-' :: cs => (parseDigitsNat cs).map (fun n => -(Int.ofNat n : Int))
  | cs => (parseDigitsNat cs).map Int.ofNat

/-- Mantissa digits (integer part `ip`, fractional part `fp`) with an optional
exponent in `rest`; `none` when no digit or trailing garbage is present. -/
def mkFloatVal (ip fp : List Char) (rest : List Char) : Option ℚ :=
  if ip.length + fp.length = 0 then none
  else
    let mant : ℚ := (digitsVal (ip ++ fp) : ℚ) / 10 ^ fp.length
    match rest with
    | [] => some mant
    | 'e' :: es => (parseExpPart es).map (fun e => mant * 10 ^ e)
    | 'E' :: es => (parseExpPart es).map (fun e => mant * 10 ^ e)
    | _ => none

/-- Unsigned part of a float literal: digits, optional `.` and more digits,
optional exponent. -/
def parsePyFloatCore (cs : List Char) : Option ℚ :=
  let ip := takeDigits cs
  match ip.2 with
  | '.' :: rest =>
    let fp := takeDigits rest
    mkFloatVal ip.1 fp.1 fp.2
  | rest => mkFloatVal ip.1 [] rest

/-- Python `float(s)` on a stripped string, restricted to finite
decimal/exponent literals (the `inf`/`nan` words and underscore digit
separators are outside the modelled fragment; no input in this development
uses them).  Returns `none` where Python raises `ValueError`. -/
def parsePyFloat (s : String) : Option ℚ :=
  match s.data with
  | '+' :: cs => parsePyFloatCore cs
  | '-' :: cs => (parsePyFloatCore cs).map Neg.neg
  | cs => parsePyFloatCore cs

/-- The message of lines 210-214 (empty time value). -/
def emptyTimeMsg (gtfsDir : String) : String :=
  "GTFS dataset " ++ gtfsDir ++ " contains empty values for arrival_time or " ++
    "departure_time in stop_times.txt.  Although the GTFS spec allows empty " ++
    "values for these fields, this toolbox requires exact time values for all " ++
    "stops.  You will not be able to use this dataset for your analysis."

/-- The message of line 221 (unparseable time value). -/
def invalidTimeMsg (colName fpath field : String) : String :=
  "Column \"" ++ colName ++ "\" in file " ++ fpath ++
    " has an invalid value: " ++ field ++ "."

/-- The body of `convert_time_columns` (lines 205-223) for one time field:
strip, accept `-?H?H:MM:SS` via the regex and convert with `hms.str2sec`,
abort on empty, otherwise try `float(field)` and abort on `ValueError`. -/
def convert_time_field (gtfsDir colName fpath : String) (value : String) :
    Except PyErr ℚ :=
  let field := pyStrip value
  if check_time_str field then .ok (str2sec field)
  else if field = "" then .error (.custom (emptyTimeMsg gtfsDir))
  else
    match parsePyFloat field with
    | some q => .ok q
    | none => .error (.custom (invalidTimeMsg colName fpath field))

/-- The message of lines 264-266. -/
def latNonNumMsg (sid fname v : String) : String :=
  "stop_id \"" ++ sid ++ "\" in " ++ fname ++
    " contains an invalid non-numerical value for the stop_lat field: \"" ++ v ++
    "\". Please double-check all lat/lon values in your stops.txt file."

/-- The message of lines 272-274. -/
def lonNonNumMsg (sid fname v : String) : String :=
  "stop_id \"" ++ sid ++ "\" in " ++ fname ++
    " contains an invalid non-numerical value for the stop_lon field: \"" ++ v ++
    "\". Please double-check all lat/lon values in your stops.txt file."

/-- The message of lines 278-281. -/
def latRangeMsg (sid fname v : String) : String :=
  "stop_id \"" ++ sid ++ "\" in " ++ fname ++
    " contains an invalid value outside the range (-90, 90) the stop_lat field: \"" ++
    v ++ "\". stop_lat values must be in valid WGS 84 coordinates.  " ++
    "Please double-check all lat/lon values in your stops.txt file."

/-- The message of lines 285-288. -/
def lonRangeMsg (sid fname v : String) : String :=
  "stop_id \"" ++ sid ++ "\" in " ++ fname ++
    " contains an invalid value outside the range (-180, 180) the stop_lon field: \"" ++
    v ++ "\". stop_lon values must be in valid WGS 84 coordinates.  " ++
    "Please double-check all lat/lon values in your stops.txt file."

/-- The body of `check_latlon_cols` (lines 257-291) for one stops row.
`col_names.index x` is Python `list.index` (first occurrence); the three
columns are present and the row covers their indices whenever this runs
(required-field check and row width), which the theorems hypothesise. -/
def check_latlon_cols (col_names : List String) (fname : String)
    (row : List String) : Except PyErr (List String) :=
  let stop_id := row.getD (col_names.indexOf "stop_id") ""
  let stop_lat := row.getD (col_names.indexOf "stop_lat") ""
  let stop_lon := row.getD (col_names.indexOf "stop_lon") ""
  match parsePyFloat stop_lat with
  | none => .error (.custom (latNonNumMsg stop_id fname stop_lat))
  | some lat =>
    match parsePyFloat stop_lon with
    | none => .error (.custom (lonNonNumMsg stop_id fname stop_lon))
    | some lon =>
      if ¬ (-90 ≤ lat ∧ lat ≤ 90) then
        .error (.custom (latRangeMsg stop_id fname stop_lat))
      else if ¬ (-180 ≤ lon ∧ lon ≤ 180) then
        .error (.custom (lonRangeMsg stop_id fname stop_lon))
      else .ok row

/-- `csv_fnames` (line 46). -/
def csv_fnames : List String :=
  ["stops.txt", "calendar.txt", "calendar_dates.txt", "stop_times.txt",
   "trips.txt", "routes.txt", "frequencies.txt"]

/-- The loop of lines 406-416, folded over `csv_fnames`: accumulate the
present files, the has-a-calendar flag, and the missing required files.
`present` is the set of file names existing in the dataset directory. -/
def scanFiles (present : List String) : List String × Bool × List String :=
  csv_fnames.foldl
    (fun acc fname =>
      if fname ∈ present then
        (acc.1 ++ [fname],
         acc.2.1 || decide (fname ∈ ["calendar_dates.txt", "calendar.txt"]),
         acc.2.2)
      else if fname ∈ ["calendar.txt", "calendar_dates.txt", "frequencies.txt"] then acc
      else (acc.1, acc.2.1, acc.2.2 ++ [fname]))
    ([], false, [])

/-- The message of lines 420-421. -/
def missingFilesMsg (label : String) (missing : List String) : String :=
  "GTFS dataset " ++ label ++ " is missing files required for this tool: " ++
    pyStrList missing

/-- The final `missing_files` list of lines 404-418: the scanned missing
files, with the combined calendar requirement appended when neither calendar
file is present. -/
def missingFilesList (present : List String) : List String :=
  let scanned := scanFiles present
  if scanned.2.1 then scanned.2.2
  else scanned.2.2 ++ ["calendar.txt or calendar_dates.txt"]

/-- The required-files part of `handle_agency` (lines 404-422): abort when
anything is missing, otherwise yield the present files in order. -/
def handle_agency_required_files (label : String) (present : List String) :
    Except PyErr (List String) :=
  if missingFilesList present = [] then .ok (scanFiles present).1
  else .error (.custom (missingFilesMsg label (missingFilesList present)))

/-- Python string `>`: lexicographic by code point, a proper prefix is
smaller. -/
def strGtChars : List Char → List Char → Bool
  | [], _ => false
  | _ :: _, [] => true
  | a :: as, b :: bs =>
    if b.toNat < a.toNat then true
    else if a.toNat < b.toNat then false
    else strGtChars as bs

/-- `a > b` on Python strings. -/
def pyStrGt (a b : String) : Bool := strGtChars a.data b.data

/-- Python dict assignment `d[k] = v`: overwrite in place, else append. -/
def pyDictSet (d : List (String × String)) (k v : String) :
    List (String × String) :=
  if d.any (fun p => p.1 == k) then
    d.map (fun p => if p.1 == k then (k, v) else p)
  else d ++ [(k, v)]

/-- Python dict read `d[k]` (keys produced by `pyDictSet` are unique, and
every key read in the checker was previously written). -/
def pyDictGet (d : List (String × String)) (k : String) : String :=
  (((d.find? (fun p => p.1 == k)).map Prod.snd)).getD ""

/-- The loop of lines 482-486: build `startdatedict` and `enddatedict` from
the `(service_id, start_date, end_date)` rows. -/
def buildDateDicts (ids : List (String × String × String)) :
    List (String × String) × List (String × String) :=
  ids.foldl
    (fun acc id => (pyDictSet acc.1 id.1 id.2.1, pyDictSet acc.2 id.1 id.2.2))
    ([], [])

/-- The inner loop of lines 489-493: for one `sid`, scan every `eid`,
appending the pair when `startdatedict[sid] > enddatedict[eid]`, and break as
soon as 10 pairs are collected. -/
def innerScan (sd ed : List (String × String)) (sid : String)
    (acc : List (String × String)) : List String → List (String × String)
  | [] => acc
  | eid :: rest =>
    let acc2 :=
      if pyStrGt (pyDictGet sd sid) (pyDictGet ed eid) then acc ++ [(sid, eid)]
      else acc
    if 10 ≤ acc2.length then acc2 else innerScan sd ed sid acc2 rest

/-- The outer loop of lines 488-495: scan every `sid`, breaking as soon as 10
pairs are collected. -/
def outerScan (sd ed : List (String × String)) (allSids : List String)
    (acc : List (String × String)) : List String → List (String × String)
  | [] => acc
  | sid :: rest =>
    let acc2 := innerScan sd ed sid acc allSids
    if 10 ≤ acc2.length then acc2 else outerScan sd ed allSids acc2 rest

/-- `nonoverlappingsids` as computed by lines 471-495 from the calendar
rows. -/
def nonoverlappingPairs (ids : List (String × String × String)) :
    List (String × String) :=
  let d := buildDateDicts ids
  let sids := ids.map Prod.fst
  outerScan d.1 d.2 sids [] sids

/-- The warning text of lines 497-503. -/
def overlapWarningText : String :=
  "Warning! Your calendar.txt file(s) contain(s) non-overlapping date ranges. " ++
    "As a result, your analysis might double count the number of trips " ++
    "available if you are analyzing a generic weekday instead of a specific " ++
    "date.  This is especially likely if the non-overlapping pairs are in the " ++
    "same GTFS dataset.  Please check the date ranges in your calendar.txt " ++
    "file(s). See the User's Guide for further assistance.  Date ranges do " ++
    "not overlap in the following pairs of service_ids: "

/-- The truncation note of line 505. -/
def truncNote : String := "(Showing the first 10 non-overlaps) "

/-- `str()` of the Python list of 2-element lists of service ids. -/
def pyPairsStr (ps : List (String × String)) : String :=
  "[" ++
    String.intercalate ", "
      (ps.map (fun p => "['" ++ p.1 ++ "', '" ++ p.2 ++ "']")) ++ "]"

/-- Lines 471-506: the warning string computed when the calendar table
exists. -/
def computeOverlapWarning (ids : List (String × String × String)) : String :=
  let pairs := nonoverlappingPairs ids
  if pairs.isEmpty then ""
  else
    overlapWarningText ++ (if pairs.length = 10 then truncNote else "") ++
      pyPairsStr pairs

/-- `check_nonoverlapping_dateranges` (lines 458-511).  The argument is the
calendar table's rows when `sqlite_master` lists a `calendar` table, `none`
otherwise.  The Python local `overlapwarning` is assigned only inside the
`if tblnames:` branch, so the trailing `return overlapwarning` raises
`UnboundLocalError` when no calendar table exists; the local is modelled by
an `Option String`. -/
def check_nonoverlapping_dateranges
    (calendarTable : Option (List (String × String × String))) :
    Except PyErr String :=
  let overlapwarning : Option String :=
    match calendarTable with
    | some ids => some (computeOverlapWarning ids)
    | none => none
  match overlapwarning with
  | some w => .ok w
  | none => .error .nameError

/-! Auxiliary specification-side definitions used only to *state* properties
(the executable code above is the translation of the source). -/

/-- Does `sub` occur as a contiguous run inside the second list? -/
def hasSub (sub : List Char) : List Char → Bool
  | [] => sub.isEmpty
  | c :: cs => leadMatch sub (c :: cs) || hasSub sub cs

/-- `sub` occurs as a substring of `msg`. -/
def strMentions (msg sub : String) : Bool := hasSub sub.data msg.data

/-- Declarative reading of the clock-time pattern `[-]?[H]H:MM:SS`: an
optional minus sign, one or two hour digits (with no upper bound on the hour
value), a colon, two minute digits, a colon, two second digits. -/
def TimeShape (s : String) : Prop :=
  ∃ (neg : Bool) (hd md sd : List Char),
    (hd.length = 1 ∨ hd.length = 2) ∧ md.length = 2 ∧ sd.length = 2 ∧
    (∀ c ∈ hd ++ md ++ sd, c.isDigit = true) ∧
    s.data = (if neg then ['-'] else []) ++ hd ++ ':' :: (md ++ ':' :: sd)

/-- The column names a table's schema marks as required. -/
def requiredColumns (t : String) : List String :=
  ((schemaCols t).filter (fun e => decide (e.2.2 = Req.required))).map Prod.fst

/-- One data row's path through lines 370-378 of `handle_file`: the agency
labeller runs first, then the column projector. -/
def processRow (tablename service : String) (columns row : List String) :
    Except PyErr (List String) :=
  (make_add_agency_labels service columns row).bind (drop_fields tablename columns)

/-- The `executemany` consumption of the lazy row pipeline (lines 381-387):
rows are processed in order and the first error aborts the whole insert. -/
def insertRows (tablename service : String) (columns : List String) :
    List (List String) → Except PyErr (List (List String))
  | [] => .ok []
  | r :: rs =>
    (processRow tablename service columns r).bind
      (fun out => (insertRows tablename service columns rs).map (out :: ·))

/-- All ordered `(sid, eid)` pairs, in iteration order, whose start date
(string-)exceeds the other's end date — the full unbounded scan that the
loops of lines 488-495 truncate. -/
def qualifyingPairs (sd ed : List (String × String)) (sids : List String) :
    List (String × String) :=
  sids.flatMap
    (fun sid =>
      (sids.filter (fun eid => pyStrGt (pyDictGet sd sid) (pyDictGet ed eid))).map
        (fun eid => (sid, eid)))

/-- The start date of the last calendar row carrying a given service id. -/
def lastStartDate (ids : List (String × String × String)) (k : String) : String :=
  (((ids.filter (fun r => r.1 == k)).getLast?).map (fun r => r.2.1)).getD ""

/-- The end date of the last calendar row carrying a given service id. -/
def lastEndDate (ids : List (String × String × String)) (k : String) : String :=
  (((ids.filter (fun r => r.1 == k)).getLast?).map (fun r => r.2.2)).getD ""

/-! ## Lemmas about the index-collection and labelling helpers -/

theorem idxWhere_mem (p : String → Bool) :
    ∀ (cs : List String) (i j : Nat),
      j ∈ idxWhere p i cs ↔
        i ≤ j ∧ j - i < cs.length ∧ p (cs.getD (j - i) "") = true := by
  intro cs
  induction cs with
  | nil => intro i j; simp [idxWhere]
  | cons c cs ih =>
    intro i j
    cases hc : p c with
    | true =>
      simp only [idxWhere, hc, if_true, List.mem_cons]
      constructor
      · rintro (rfl | hj)
        · simp [hc]
        · obtain ⟨h1, h2, h3⟩ := (ih (i + 1) j).mp hj
          refine ⟨by omega, by simp only [List.length_cons]; omega, ?_⟩
          have hji : j - i = (j - (i + 1)) + 1 := by omega
          rw [hji]
          simpa using h3
      · rintro ⟨h1, h2, h3⟩
        rcases Nat.eq_or_lt_of_le h1 with rfl | hlt
        · left; rfl
        · right
          refine (ih (i + 1) j).mpr
            ⟨by omega, by simp only [List.length_cons] at h2; omega, ?_⟩
          have hji : j - i = (j - (i + 1)) + 1 := by omega
          rw [hji] at h3
          simpa using h3
    | false =>
      simp only [idxWhere, hc, Bool.false_eq_true, if_false]
      rw [ih (i + 1) j]
      constructor
      · rintro ⟨h1, h2, h3⟩
        refine ⟨by omega, by simp only [List.length_cons]; omega, ?_⟩
        have hji : j - i = (j - (i + 1)) + 1 := by omega
        rw [hji]
        simpa using h3
      · rintro ⟨h1, h2, h3⟩
        rcases Nat.eq_or_lt_of_le h1 with rfl | hlt
        · rw [Nat.sub_self] at h3
          simp only [List.getD_cons_zero] at h3
          rw [h3] at hc
          exact absurd hc (by simp)
        · refine ⟨by omega, by simp only [List.length_cons] at h2; omega, ?_⟩
          have hji : j - i = (j - (i + 1)) + 1 := by omega
          rw [hji] at h3
          simpa using h3

theorem idxWhere_pairwise (p : String → Bool) :
    ∀ (cs : List String) (i : Nat), List.Pairwise (· < ·) (idxWhere p i cs) := by
  intro cs
  induction cs with
  | nil => intro i; simp [idxWhere]
  | cons c cs ih =>
    intro i
    cases hc : p c with
    | true =>
      simp only [idxWhere, hc, if_true]
      refine List.pairwise_cons.mpr ⟨?_, ih (i + 1)⟩
      intro j hj
      have := ((idxWhere_mem p cs (i + 1) j).mp hj).1
      omega
    | false =>
      simpa only [idxWhere, hc, Bool.false_eq_true, if_false] using ih (i + 1)

theorem idxWhere_length (p : String → Bool) :
    ∀ (cs : List String) (i : Nat), (idxWhere p i cs).length = cs.countP p := by
  intro cs
  induction cs with
  | nil => intro i; simp [idxWhere]
  | cons c cs ih =>
    intro i
    cases hc : p c with
    | true => simp [idxWhere, hc, List.countP_cons, ih (i + 1)]
    | false => simp [idxWhere, hc, List.countP_cons, ih (i + 1)]

theorem applyLabels_length (label : String) (s : List Nat) :
    ∀ (i : Nat) (vs : List String), (applyLabels label s i vs).length = vs.length := by
  intro i vs
  induction vs generalizing i with
  | nil => simp [applyLabels]
  | cons v vs ih => simp [applyLabels, ih]

theorem applyLabels_getD (label : String) (s : List Nat) :
    ∀ (vs : List String) (i k : Nat), k < vs.length →
      (applyLabels label s i vs).getD k "" =
        if (i + k) ∈ s then label ++ ":" ++ pyStrip (vs.getD k "")
        else vs.getD k "" := by
  intro vs
  induction vs with
  | nil => intro i k hk; simp at hk
  | cons v vs ih =>
    intro i k hk
    cases k with
    | zero => simp [applyLabels]
    | succ k =>
      have hk' : k < vs.length := by simpa using hk
      have h := ih (i + 1) k hk'
      have hieq : (i + 1) + k = i + (k + 1) := by omega
      rw [hieq] at h
      simpa [applyLabels] using h

/-- C1: for every dataset label and every table row (of the header's width),
the namespacing function rewrites exactly the columns whose header name ends
in `_id` and is not `direction_id`, each such field becoming the sanitized
label (characters outside `[A-Za-z0-9]` stripped), a colon, and the
whitespace-trimmed original value; every other column is unchanged, and the
label used is `sanitizeLabel service`, computed by the builder once, not from
the row. -/
theorem C1_identifier_namespacing (service : String) (columns row : List String)
    (hlen : row.length = columns.length) :
    ∃ out, make_add_agency_labels service columns row = Except.ok out ∧
      out.length = row.length ∧
      ∀ k, k < row.length →
        out.getD k "" =
          if pyEndsWith (columns.getD k "") "_id" ∧ columns.getD k "" ≠ "direction_id"
          then sanitizeLabel service ++ ":" ++ pyStrip (row.getD k "")
          else row.getD k "" := by
  have hall : (idColIdxs columns).all (fun idx => idx < row.length) = true := by
    rw [List.all_eq_true]
    intro j hj
    have h := (idxWhere_mem isIdCol columns 0 j).mp hj
    simp only [decide_eq_true_eq]
    omega
  refine ⟨applyLabels (sanitizeLabel service) (idColIdxs columns) 0 row, ?_, ?_, ?_⟩
  · simp [make_add_agency_labels, hall]
  · exact applyLabels_length _ _ 0 row
  · intro k hk
    rw [applyLabels_getD _ _ row 0 k hk]
    have hiff : (0 + k) ∈ idColIdxs columns ↔
        (pyEndsWith (columns.getD k "") "_id" ∧ columns.getD k "" ≠ "direction_id") := by
      rw [Nat.zero_add]
      rw [idColIdxs, idxWhere_mem isIdCol columns 0 k]
      constructor
      · rintro ⟨-, -, h⟩
        simpa [isIdCol, Bool.and_eq_true, bne_iff_ne] using h
      · intro h
        refine ⟨Nat.zero_le k, by simpa using (hlen ▸ hk), ?_⟩
        simpa [isIdCol, Bool.and_eq_true, bne_iff_ne] using h
    rw [if_congr hiff rfl rfl]

/-- Witness for C1 at a concrete labelled row. -/
theorem C1_identifier_namespacing_witness :
    ∃ out, make_add_agency_labels "ct a" ["route_id", "direction_id"] [" r1 ", "0"] =
        Except.ok out ∧
      out.getD 0 "" = "cta:r1" ∧ out.getD 1 "" = "0" := by
  obtain ⟨out, h1, -, h3⟩ :=
    C1_identifier_namespacing "ct a" ["route_id", "direction_id"] [" r1 ", "0"] rfl
  refine ⟨out, h1, ?_, ?_⟩
  · have h := h3 0 (by decide)
    rw [h]; decide
  · have h := h3 1 (by decide)
    rw [h]; decide

/-! ## Lemmas about the column projector -/

theorem popAll_length :
    ∀ (idxs : List Nat) (row : List String),
      List.Pairwise (· > ·) idxs → (∀ j ∈ idxs, j < row.length) →
      (popAll idxs row).length = row.length - idxs.length := by
  intro idxs
  induction idxs with
  | nil => intro row _ _; simp [popAll]
  | cons d ds ih =>
    intro row hp hb
    have hd : d < row.length := hb d (List.mem_cons_self d ds)
    have hstep : popAll (d :: ds) row = popAll ds (row.eraseIdx d) := rfl
    have hlen : (row.eraseIdx d).length = row.length - 1 := by
      rw [List.length_eraseIdx]
      simp [hd]
    obtain ⟨hall, hp'⟩ := List.pairwise_cons.mp hp
    rw [hstep, ih (row.eraseIdx d) hp' ?_]
    · rw [hlen]
      simp only [List.length_cons]
      omega
    · intro j hj
      have hjd : d > j := hall j hj
      omega

theorem extraColIdxs_reverse_pairwise (tablename : String) (columns : List String) :
    List.Pairwise (· > ·) (extraColIdxs tablename columns).reverse := by
  rw [List.pairwise_reverse]
  exact idxWhere_pairwise _ columns 0

theorem extraColIdxs_bound (tablename : String) (columns : List String) :
    ∀ j ∈ extraColIdxs tablename columns, j < columns.length := by
  intro j hj
  have h := (idxWhere_mem _ columns 0 j).mp hj
  omega

/-- C2 (amended): for a table of the Schema Registry and a row that passes
the row-shape check, the projector succeeds and the projected row has exactly
as many fields as the header has columns belonging to the table's declared
schema — extra (non-schema) columns never contribute, however many there are.
(This equals the declared count only when the header lists every declared
column exactly once; absent optional columns make it smaller, see the
counterexample.) -/
theorem C2_projected_row_width (tablename : String) (columns row : List String)
    (hlen : row.length = columns.length) :
    ∃ out, drop_fields tablename columns row = Except.ok out ∧
      out.length = columns.countP (fun c => decide (c ∈ schemaKeys tablename)) := by
  refine ⟨popAll (extraColIdxs tablename columns).reverse row, ?_, ?_⟩
  · simp [drop_fields, hlen]
  · rw [popAll_length _ row (extraColIdxs_reverse_pairwise tablename columns) ?_]
    · rw [List.length_reverse]
      rw [extraColIdxs, idxWhere_length]
      have hc : (fun c => !(decide (c ∈ schemaKeys tablename))) =
          (fun a => decide (¬ decide (a ∈ schemaKeys tablename) = true)) := by
        funext c
        simp [decide_not]
      rw [hc]
      have htot : columns.length =
          List.countP (fun c => decide (c ∈ schemaKeys tablename)) columns +
            List.countP (fun a => decide (¬ decide (a ∈ schemaKeys tablename) = true))
              columns :=
        List.length_eq_countP_add_countP _ columns
      omega
    · intro j hj
      rw [List.mem_reverse] at hj
      have := extraColIdxs_bound tablename columns j hj
      omega

/-- Witness for C2's amended theorem: a stops header carrying one extra
column projects to the ten declared fields. -/
theorem C2_projected_row_width_witness :
    ∃ out,
      drop_fields "stops"
          ["stop_id", "stop_code", "stop_name", "stop_desc", "stop_lat",
           "stop_lon", "zone_id", "stop_url", "location_type",
           "parent_station", "wheelchair_boarding"]
          ["s1", "c", "n", "d", "1.0", "2.0", "z", "u", "0", "p", "1"] =
        Except.ok out ∧
      out.length = 10 := by
  obtain ⟨out, h1, h2⟩ := C2_projected_row_width "stops"
    ["stop_id", "stop_code", "stop_name", "stop_desc", "stop_lat",
     "stop_lon", "zone_id", "stop_url", "location_type",
     "parent_station", "wheelchair_boarding"]
    ["s1", "c", "n", "d", "1.0", "2.0", "z", "u", "0", "p", "1"] rfl
  refine ⟨out, h1, ?_⟩
  rw [h2]
  decide

/-- C2 counterexample: a `stops.txt` header carrying only the four required
columns passes the row-shape check, yet the projected row has 4 fields while
the Schema Registry declares 10 for `stops` — the claimed unconditional
equality with the declared column count fails. -/
theorem C2_counterexample :
    drop_fields "stops" ["stop_id", "stop_name", "stop_lat", "stop_lon"]
        ["1", "A", "35.0", "139.0"] =
      Except.ok ["1", "A", "35.0", "139.0"] ∧
    (["1", "A", "35.0", "139.0"] : List String).length = 4 ∧
    (schemaCols "stops").length = 10 := by
  refine ⟨rfl, rfl, rfl⟩

/-! ## Lemmas about one row's path through the pipeline -/

theorem insertRows_ok_mem (tablename service : String) (columns : List String) :
    ∀ (rows outs : List (List String)),
      insertRows tablename service columns rows = Except.ok outs →
      ∀ r ∈ rows, ∃ out, processRow tablename service columns r = Except.ok out := by
  intro rows
  induction rows with
  | nil => intro outs _ r hr; simp at hr
  | cons q qs ih =>
    intro outs h r hr
    rw [insertRows] at h
    cases hq : processRow tablename service columns q with
    | error e => rw [hq] at h; simp [Except.bind] at h
    | ok out =>
      rw [hq] at h
      simp only [Except.bind] at h
      rcases List.mem_cons.mp hr with rfl | hr'
      · exact ⟨out, hq⟩
      · cases hrec : insertRows tablename service columns qs with
        | error e => rw [hrec] at h; simp [Except.map] at h
        | ok outs' => exact ih outs' hrec r hr'

/-- C7 (amended): a data row whose width differs from the header's never
survives the pipeline — the insert of any row list containing it fails.
Whenever every identifier-column index is inside the row (in particular for
any over-long row), the failure is the uniform abort error raised by
`drop_fields`; a row too short to cover some identifier-column index instead
raises an `IndexError` inside the labeller (see the counterexample), not the
uniform abort error. -/
theorem C7_row_width_mismatch (tablename service : String) (columns row : List String)
    (hne : row.length ≠ columns.length) :
    (∀ out, processRow tablename service columns row ≠ Except.ok out) ∧
    ((∀ j ∈ idColIdxs columns, j < row.length) →
      processRow tablename service columns row =
        Except.error (PyErr.custom (wrongWidthMsg tablename columns
          (applyLabels (sanitizeLabel service) (idColIdxs columns) 0 row)))) ∧
    (∀ rows, row ∈ rows →
      ∀ outs, insertRows tablename service columns rows ≠ Except.ok outs) := by
  have hnotok : ∀ out, processRow tablename service columns row ≠ Except.ok out := by
    intro out hout
    by_cases hall : ∀ j ∈ idColIdxs columns, j < row.length
    · have hb : (idColIdxs columns).all (fun idx => idx < row.length) = true := by
        rw [List.all_eq_true]
        intro j hj
        simpa using hall j hj
      have hlen2 := applyLabels_length (sanitizeLabel service) (idColIdxs columns) 0 row
      simp [processRow, make_add_agency_labels, hb, Except.bind, drop_fields,
        hlen2, hne] at hout
    · have hb : ¬ ((idColIdxs columns).all (fun idx => idx < row.length) = true) := by
        rw [List.all_eq_true]
        intro hc
        exact hall (fun j hj => by simpa using hc j hj)
      simp [processRow, make_add_agency_labels, hb, Except.bind] at hout
  refine ⟨hnotok, ?_, ?_⟩
  · intro hall
    have hb : (idColIdxs columns).all (fun idx => idx < row.length) = true := by
      rw [List.all_eq_true]
      intro j hj
      simpa using hall j hj
    have hlen2 := applyLabels_length (sanitizeLabel service) (idColIdxs columns) 0 row
    simp [processRow, make_add_agency_labels, hb, Except.bind, drop_fields, hlen2, hne]
  · intro rows hmem outs hok
    obtain ⟨out, hout⟩ :=
      insertRows_ok_mem tablename service columns rows outs hok row hmem
    exact hnotok out hout

/-- Witness for C7's amended theorem: an over-long trips row aborts with the
uniform abort error. -/
theorem C7_row_width_mismatch_witness :
    (["a", "b", "c", "d", "e", "f", "g", "h", "i"] : List String).length ≠
      (["route_id", "service_id", "trip_id", "trip_headsign", "trip_short_name",
        "direction_id", "block_id", "shape_id"] : List String).length ∧
    ∃ m, processRow "trips" "cta"
        ["route_id", "service_id", "trip_id", "trip_headsign", "trip_short_name",
         "direction_id", "block_id", "shape_id"]
        ["a", "b", "c", "d", "e", "f", "g", "h", "i"] =
      Except.error (PyErr.custom m) := by
  refine ⟨by decide, ?_⟩
  have h := (C7_row_width_mismatch "trips" "cta"
    ["route_id", "service_id", "trip_id", "trip_headsign", "trip_short_name",
     "direction_id", "block_id", "shape_id"]
    ["a", "b", "c", "d", "e", "f", "g", "h", "i"] (by decide)).2.1 (by decide)
  exact ⟨_, h⟩

/-- C7 counterexample: a one-field trips row (header has three identifier
columns) raises `IndexError` inside the labeller — `ret[idx]` with `idx`
beyond the row — before `drop_fields` can raise the uniform abort error, so
the claimed "raises the uniform abort error" fails for this mismatched row
(the import still dies, but with a different error). -/
theorem C7_counterexample :
    processRow "trips" "cta" ["route_id", "service_id", "trip_id"] ["x"] =
      Except.error PyErr.indexError ∧
    ¬ ∃ m, processRow "trips" "cta" ["route_id", "service_id", "trip_id"] ["x"] =
        Except.error (PyErr.custom m) := by
  have h : processRow "trips" "cta" ["route_id", "service_id", "trip_id"] ["x"] =
      Except.error PyErr.indexError := rfl
  refine ⟨h, ?_⟩
  rintro ⟨m, hm⟩
  rw [h] at hm
  exact absurd hm (by simp)

/-! ## Lemmas about dataset-level file requirements -/

theorem scanFiles_eq (present : List String) :
    scanFiles present =
      (csv_fnames.filter (fun f => decide (f ∈ present)),
       (decide ("calendar.txt" ∈ present) || decide ("calendar_dates.txt" ∈ present)),
       (["stops.txt", "stop_times.txt", "trips.txt", "routes.txt"].filter
          (fun f => !decide (f ∈ present)))) := by
  by_cases h1 : "stops.txt" ∈ present <;>
    by_cases h2 : "calendar.txt" ∈ present <;>
      by_cases h3 : "calendar_dates.txt" ∈ present <;>
        by_cases h4 : "stop_times.txt" ∈ present <;>
          by_cases h5 : "trips.txt" ∈ present <;>
            by_cases h6 : "routes.txt" ∈ present <;>
              by_cases h7 : "frequencies.txt" ∈ present <;>
                simp [scanFiles, csv_fnames, h1, h2, h3, h4, h5, h6, h7]

theorem missingFilesList_eq (present : List String) :
    missingFilesList present =
      (["stops.txt", "stop_times.txt", "trips.txt", "routes.txt"].filter
         (fun f => !decide (f ∈ present))) ++
      (if "calendar.txt" ∈ present ∨ "calendar_dates.txt" ∈ present then []
       else ["calendar.txt or calendar_dates.txt"]) := by
  rw [missingFilesList, scanFiles_eq]
  by_cases h2 : "calendar.txt" ∈ present <;>
    by_cases h3 : "calendar_dates.txt" ∈ present <;>
      simp [h2, h3]

theorem missing_required_file_mem (present : List String) :
    ∀ f ∈ (["stops.txt", "stop_times.txt", "trips.txt", "routes.txt"] : List String),
      f ∉ present → f ∈ missingFilesList present := by
  intro f hf hnp
  rw [missingFilesList_eq]
  refine List.mem_append_left _ ?_
  rw [List.mem_filter]
  exact ⟨hf, by simpa using hnp⟩

theorem missing_calendar_mem (present : List String) :
    ("calendar.txt" ∉ present ∧ "calendar_dates.txt" ∉ present) →
      "calendar.txt or calendar_dates.txt" ∈ missingFilesList present := by
  rintro ⟨h2, h3⟩
  rw [missingFilesList_eq]
  refine List.mem_append_right _ ?_
  simp [h2, h3]

/-- C8: dataset loading fails on missing files exactly when one of
`stops.txt`, `stop_times.txt`, `trips.txt`, `routes.txt` is absent or both
calendar files are absent; `frequencies.txt` is never required; with both
calendar files absent the combined requirement string is in the list; every
absent required file is accumulated in the list, and the error message
carries the whole list. -/
theorem C8_required_files (label : String) (present : List String) :
    ((∃ e, handle_agency_required_files label present = Except.error e) ↔
      ("stops.txt" ∉ present ∨ "stop_times.txt" ∉ present ∨ "trips.txt" ∉ present ∨
        "routes.txt" ∉ present ∨
        ("calendar.txt" ∉ present ∧ "calendar_dates.txt" ∉ present))) ∧
    "frequencies.txt" ∉ missingFilesList present ∧
    (("calendar.txt" ∉ present ∧ "calendar_dates.txt" ∉ present) →
      "calendar.txt or calendar_dates.txt" ∈ missingFilesList present) ∧
    (∀ f ∈ (["stops.txt", "stop_times.txt", "trips.txt", "routes.txt"] : List String),
      f ∉ present → f ∈ missingFilesList present) ∧
    (∀ e, handle_agency_required_files label present = Except.error e →
      e = PyErr.custom (missingFilesMsg label (missingFilesList present))) := by
  refine ⟨?_, ?_, missing_calendar_mem present, missing_required_file_mem present, ?_⟩
  · rw [handle_agency_required_files]
    by_cases h1 : "stops.txt" ∈ present <;>
      by_cases h2 : "calendar.txt" ∈ present <;>
        by_cases h3 : "calendar_dates.txt" ∈ present <;>
          by_cases h4 : "stop_times.txt" ∈ present <;>
            by_cases h5 : "trips.txt" ∈ present <;>
              by_cases h6 : "routes.txt" ∈ present <;>
                simp [missingFilesList_eq, h1, h2, h3, h4, h5, h6]
  · rw [missingFilesList_eq]
    by_cases h2 : "calendar.txt" ∈ present <;>
      by_cases h3 : "calendar_dates.txt" ∈ present <;>
        simp [h2, h3]
  · intro e he
    rw [handle_agency_required_files] at he
    by_cases hm : missingFilesList present = []
    · simp [hm] at he
    · simp only [hm, if_false] at he
      exact (Except.error.inj he).symm

/-- Witness for C8 at a dataset missing both calendar files. -/
theorem C8_required_files_witness :
    ∃ e, handle_agency_required_files "lab"
        ["stops.txt", "stop_times.txt", "trips.txt", "routes.txt"] =
      Except.error e := by
  refine (C8_required_files "lab"
    ["stops.txt", "stop_times.txt", "trips.txt", "routes.txt"]).1.mpr ?_
  right; right; right; right
  exact ⟨by decide, by decide⟩

/-! ## Lemmas about the required-column check -/

theorem firstMissingRequired_none_iff :
    ∀ (specs : List (String × SType × Req)) (columns : List String),
      firstMissingRequired specs columns = none ↔
        ∀ e ∈ specs, e.2.2 = Req.required → e.1 ∈ columns := by
  intro specs
  induction specs with
  | nil => intro columns; simp [firstMissingRequired]
  | cons e rest ih =>
    intro columns
    obtain ⟨c, ty, r⟩ := e
    constructor
    · intro h e' he' hr
      rw [firstMissingRequired] at h
      by_cases hc : r = Req.required ∧ c ∉ columns
      · rw [if_pos hc] at h
        exact absurd h (by simp)
      · rw [if_neg hc] at h
        rcases List.mem_cons.mp he' with heq | hmem
        · subst heq
          simp only at hr
          by_contra hn
          exact hc ⟨hr, hn⟩
        · exact (ih columns).mp h e' hmem hr
    · intro h
      rw [firstMissingRequired]
      by_cases hc : r = Req.required ∧ c ∉ columns
      · exact absurd (h (c, ty, r) (List.mem_cons_self _ _) hc.1) hc.2
      · rw [if_neg hc]
        exact (ih columns).mpr fun e' he' hr => h e' (List.mem_cons_of_mem _ he') hr

theorem firstMissingRequired_some :
    ∀ (specs : List (String × SType × Req)) (columns : List String) (c : String),
      firstMissingRequired specs columns = some c →
        (∃ ty, (c, ty, Req.required) ∈ specs) ∧ c ∉ columns := by
  intro specs
  induction specs with
  | nil => intro columns c h; simp [firstMissingRequired] at h
  | cons e rest ih =>
    intro columns c h
    obtain ⟨c', ty', r'⟩ := e
    rw [firstMissingRequired] at h
    by_cases hc : r' = Req.required ∧ c' ∉ columns
    · rw [if_pos hc] at h
      obtain ⟨hr, hnc⟩ := hc
      have hcc : c' = c := Option.some.inj h
      subst hcc
      subst hr
      exact ⟨⟨ty', List.mem_cons_self _ _⟩, hnc⟩
    · rw [if_neg hc] at h
      obtain ⟨⟨ty, hmem⟩, hnc⟩ := ih columns c h
      exact ⟨⟨ty, List.mem_cons_of_mem _ hmem⟩, hnc⟩

theorem leadMatch_append (s t : List Char) : leadMatch s (s ++ t) = true := by
  induction s with
  | nil => simp [leadMatch]
  | cons a as ih => simp [leadMatch, ih]

theorem hasSub_of_leadMatch (sub h : List Char) (hl : leadMatch sub h = true) :
    hasSub sub h = true := by
  cases h with
  | nil =>
    cases sub with
    | nil => simp [hasSub]
    | cons a as => simp [leadMatch] at hl
  | cons c cs => simp [hasSub, hl]

theorem hasSub_append_mid (sub q : List Char) :
    ∀ p : List Char, hasSub sub (p ++ (sub ++ q)) = true := by
  intro p
  induction p with
  | nil =>
    rw [List.nil_append]
    exact hasSub_of_leadMatch sub (sub ++ q) (leadMatch_append sub q)
  | cons c p ih => simp [hasSub, ih]

theorem strMentions_requiredFieldMsg (t ds c : String) :
    strMentions (requiredFieldMsg t ds c) c = true := by
  rw [strMentions, requiredFieldMsg]
  have h : ("GTFS file " ++ t ++ ".txt in dataset " ++ ds ++
        " is missing required field '" ++ c ++ "'. Failed to SQLize GTFS data").data =
      ("GTFS file " ++ t ++ ".txt in dataset " ++ ds ++
        " is missing required field '").data ++
        (c.data ++ ("'. Failed to SQLize GTFS data").data) := by
    simp [String.data_append]
  rw [h]
  exact hasSub_append_mid c.data ("'. Failed to SQLize GTFS data").data _

theorem mem_requiredColumns_iff (t : String) (c : String) :
    c ∈ requiredColumns t ↔ ∃ ty, (c, ty, Req.required) ∈ schemaCols t := by
  rw [requiredColumns]
  constructor
  · intro h
    obtain ⟨⟨c', ty', r'⟩, hmem, rfl⟩ := List.mem_map.mp h
    obtain ⟨hm, hr⟩ := List.mem_filter.mp hmem
    simp only [decide_eq_true_eq] at hr
    exact ⟨ty', by rwa [hr] at hm⟩
  · rintro ⟨ty, hmem⟩
    exact List.mem_map.mpr ⟨(c, ty, Req.required), List.mem_filter.mpr ⟨hmem, by simp⟩, rfl⟩

/-- C9 (amended): missing required *files* are accumulated and reported all
together (including the combined calendar requirement); a header missing
several required *columns* instead aborts at the first missing column in
schema order, whose name alone appears in the message — the message is built
from exactly one column name. -/
theorem C9_error_enumeration :
    (∀ present : List String,
      (∀ f ∈ (["stops.txt", "stop_times.txt", "trips.txt", "routes.txt"] : List String),
        f ∉ present → f ∈ missingFilesList present) ∧
      (("calendar.txt" ∉ present ∧ "calendar_dates.txt" ∉ present) →
        "calendar.txt or calendar_dates.txt" ∈ missingFilesList present)) ∧
    (∀ tablename columns dataset,
      (check_for_required_fields tablename columns dataset = Except.ok () ↔
        ∀ c ∈ requiredColumns tablename, c ∈ columns) ∧
      (∀ m, check_for_required_fields tablename columns dataset =
          Except.error (PyErr.custom m) →
        ∃ c, c ∈ requiredColumns tablename ∧ c ∉ columns ∧
          m = requiredFieldMsg tablename dataset c ∧ strMentions m c = true)) := by
  refine ⟨fun present =>
    ⟨missing_required_file_mem present, missing_calendar_mem present⟩, ?_⟩
  intro tablename columns dataset
  cases hf : firstMissingRequired (schemaCols tablename) columns with
  | none =>
    have hck : check_for_required_fields tablename columns dataset = Except.ok () := by
      simp [check_for_required_fields, hf]
    refine ⟨⟨fun _ c hc => ?_, fun _ => hck⟩, fun m hm => ?_⟩
    · obtain ⟨ty, hmem⟩ := (mem_requiredColumns_iff tablename c).mp hc
      exact (firstMissingRequired_none_iff _ columns).mp hf (c, ty, Req.required) hmem rfl
    · rw [hck] at hm
      exact absurd hm (by simp)
  | some c =>
    have hck : check_for_required_fields tablename columns dataset =
        Except.error (.custom (requiredFieldMsg tablename dataset c)) := by
      simp [check_for_required_fields, hf]
    obtain ⟨⟨ty, hmem⟩, hnc⟩ := firstMissingRequired_some _ columns c hf
    have hcr : c ∈ requiredColumns tablename :=
      (mem_requiredColumns_iff tablename c).mpr ⟨ty, hmem⟩
    refine ⟨⟨fun h => ?_, fun hall => absurd (hall c hcr) hnc⟩, fun m hm => ?_⟩
    · rw [hck] at h
      exact absurd h (by simp)
    · rw [hck] at hm
      simp only [Except.error.injEq, PyErr.custom.injEq] at hm
      refine ⟨c, hcr, hnc, hm.symm, ?_⟩
      rw [← hm]
      exact strMentions_requiredFieldMsg tablename dataset c

/-- Witness for C9: a full stops header passes the required-column check. -/
theorem C9_error_enumeration_witness :
    check_for_required_fields "stops" ["stop_id", "stop_name", "stop_lat", "stop_lon"]
        "d" = Except.ok () := by
  refine (C9_error_enumeration.2 "stops"
    ["stop_id", "stop_name", "stop_lat", "stop_lon"] "d").1.mpr ?_
  decide

/-- C9 counterexample: a stops header missing both required columns
`stop_id` and `stop_name` aborts with a message naming only `stop_id`; the
missing `stop_name` is not reported together with it. -/
theorem C9_counterexample :
    "stop_id" ∈ requiredColumns "stops" ∧ "stop_name" ∈ requiredColumns "stops" ∧
    "stop_id" ∉ (["stop_lat", "stop_lon"] : List String) ∧
    "stop_name" ∉ (["stop_lat", "stop_lon"] : List String) ∧
    check_for_required_fields "stops" ["stop_lat", "stop_lon"] "ds" =
      Except.error (PyErr.custom (requiredFieldMsg "stops" "ds" "stop_id")) ∧
    strMentions (requiredFieldMsg "stops" "ds" "stop_id") "stop_name" = false := by
  exact ⟨by decide, by decide, by decide, by decide, rfl, by decide⟩

/-! ## The merge consistency checker -/

/-- C3 (evaluating the code at the claim's inputs): with a calendar table the
checker always returns the warning string (empty when no pair is found), but
with no calendar table the `return overlapwarning` line reads a local that
was never assigned and raises `UnboundLocalError` instead of returning the
empty string — the code contradicts its own "Only do this if we have a
calendar table" guard and the advisory-never-fatal contract. -/
theorem C3_overlap_checker_totality :
    check_nonoverlapping_dateranges none = Except.error PyErr.nameError ∧
    (∀ ids, check_nonoverlapping_dateranges (some ids) =
      Except.ok (computeOverlapWarning ids)) ∧
    check_nonoverlapping_dateranges (some []) = Except.ok "" := by
  exact ⟨rfl, fun ids => rfl, rfl⟩

theorem innerScan_eq (sd ed : List (String × String)) (sid : String) :
    ∀ (es : List String) (acc : List (String × String)), acc.length < 10 →
      innerScan sd ed sid acc es =
        (acc ++
          (es.filter (fun eid => pyStrGt (pyDictGet sd sid) (pyDictGet ed eid))).map
            (fun eid => (sid, eid))).take 10 := by
  intro es
  induction es with
  | nil =>
    intro acc hacc
    simp [innerScan, List.take_of_length_le (Nat.le_of_lt hacc)]
  | cons eid rest ih =>
    intro acc hacc
    have hunf : innerScan sd ed sid acc (eid :: rest) =
        (let acc2 :=
          if pyStrGt (pyDictGet sd sid) (pyDictGet ed eid) then acc ++ [(sid, eid)]
          else acc
         if 10 ≤ acc2.length then acc2 else innerScan sd ed sid acc2 rest) := rfl
    rw [hunf]
    cases hcond : pyStrGt (pyDictGet sd sid) (pyDictGet ed eid) with
    | true =>
      simp only [hcond, if_true]
      by_cases h10 : 10 ≤ (acc ++ [(sid, eid)]).length
      · rw [if_pos h10]
        have hlen : (acc ++ [(sid, eid)]).length = 10 := by
          simp only [List.length_append, List.length_cons, List.length_nil] at h10 ⊢
          omega
        rw [List.filter_cons_of_pos (by rw [hcond]), List.map_cons]
        have hassoc : acc ++
            ((sid, eid) ::
              (rest.filter
                (fun e => pyStrGt (pyDictGet sd sid) (pyDictGet ed e))).map
                (fun e => (sid, e))) =
            (acc ++ [(sid, eid)]) ++
              (rest.filter
                (fun e => pyStrGt (pyDictGet sd sid) (pyDictGet ed e))).map
                (fun e => (sid, e)) := by
          simp
        rw [hassoc, List.take_append_of_le_length (by omega),
          List.take_of_length_le (by omega)]
      · rw [if_neg h10]
        have hlt : (acc ++ [(sid, eid)]).length < 10 := by omega
        rw [ih (acc ++ [(sid, eid)]) hlt]
        rw [List.filter_cons_of_pos (by rw [hcond]), List.map_cons]
        congr 1
        simp
    | false =>
      simp only [hcond, Bool.false_eq_true, if_false]
      rw [if_neg (by omega), ih acc hacc,
        List.filter_cons_of_neg (by rw [hcond]; simp)]

theorem outerScan_eq (sd ed : List (String × String)) (allSids : List String) :
    ∀ (rem : List String) (acc : List (String × String)), acc.length < 10 →
      outerScan sd ed allSids acc rem =
        (acc ++
          rem.flatMap (fun sid =>
            (allSids.filter
              (fun eid => pyStrGt (pyDictGet sd sid) (pyDictGet ed eid))).map
              (fun eid => (sid, eid)))).take 10 := by
  intro rem
  induction rem with
  | nil =>
    intro acc hacc
    simp [outerScan, List.take_of_length_le (Nat.le_of_lt hacc)]
  | cons sid rest ih =>
    intro acc hacc
    have hunf : outerScan sd ed allSids acc (sid :: rest) =
        (let acc2 := innerScan sd ed sid acc allSids
         if 10 ≤ acc2.length then acc2 else outerScan sd ed allSids acc2 rest) := rfl
    rw [hunf]
    simp only [innerScan_eq sd ed sid allSids acc hacc]
    set Q := (allSids.filter
      (fun eid => pyStrGt (pyDictGet sd sid) (pyDictGet ed eid))).map
      (fun eid => (sid, eid)) with hQ
    by_cases h10 : 10 ≤ ((acc ++ Q).take 10).length
    · rw [if_pos h10]
      have hlen : 10 ≤ (acc ++ Q).length := by
        rw [List.length_take] at h10
        omega
      rw [List.flatMap_cons, ← List.append_assoc,
        List.take_append_of_le_length hlen]
    · rw [if_neg h10]
      have hlen : (acc ++ Q).length < 10 := by
        rw [List.length_take] at h10
        omega
      have hnt : (acc ++ Q).take 10 = acc ++ Q :=
        List.take_of_length_le (by omega)
      rw [hnt] at h10 ⊢
      rw [ih (acc ++ Q) (by omega), List.flatMap_cons, ← List.append_assoc]

/-- C4: the recorded non-overlap list is exactly the first 10 (in iteration
order, self-pairs included) of all ordered pairs whose start date
string-exceeds the other's end date, the double `break` stopping the scan at
10; and the warning carries the truncation note exactly when 10 pairs were
recorded. -/
theorem C4_nonoverlap_scan (ids : List (String × String × String)) :
    nonoverlappingPairs ids =
      (qualifyingPairs (buildDateDicts ids).1 (buildDateDicts ids).2
        (ids.map Prod.fst)).take 10 ∧
    computeOverlapWarning ids =
      (if nonoverlappingPairs ids = [] then ""
       else
         overlapWarningText ++
           (if (nonoverlappingPairs ids).length = 10 then truncNote else "") ++
           pyPairsStr (nonoverlappingPairs ids)) := by
  constructor
  · rw [nonoverlappingPairs, qualifyingPairs]
    rw [outerScan_eq _ _ _ _ [] (by simp)]
    rw [List.nil_append]
  · by_cases hp : nonoverlappingPairs ids = [] <;>
      simp [computeOverlapWarning, hp]

theorem pyDict_find?_map_self (d : List (String × String)) (k v : String)
    (hany : d.any (fun p => p.1 == k) = true) :
    (d.map (fun p => if p.1 == k then (k, v) else p)).find?
      (fun p => p.1 == k) = some (k, v) := by
  induction d with
  | nil => simp at hany
  | cons p ps ih =>
    by_cases hp : p.1 = k
    · rw [List.map_cons, if_pos (by simpa using hp)]
      exact List.find?_cons_of_pos _ (by simp)
    · rw [List.map_cons, if_neg (by simpa using hp)]
      rw [List.find?_cons_of_neg _ (by simpa using hp)]
      apply ih
      simp only [List.any_cons] at hany
      rcases Bool.or_eq_true_iff.mp hany with h | h
      · exact absurd (by simpa using h) hp
      · exact h

theorem pyDict_find?_map_other (d : List (String × String)) (k v k' : String)
    (h : k' ≠ k) :
    (d.map (fun p => if p.1 == k then (k, v) else p)).find?
      (fun p => p.1 == k') = d.find? (fun p => p.1 == k') := by
  induction d with
  | nil => simp
  | cons p ps ih =>
    by_cases hp : p.1 = k
    · rw [List.map_cons, if_pos (by simpa using hp)]
      rw [List.find?_cons_of_neg _ (by simpa using Ne.symm h)]
      rw [List.find?_cons_of_neg _ (by simp [hp]; exact Ne.symm h)]
      exact ih
    · rw [List.map_cons, if_neg (by simpa using hp)]
      by_cases hpk' : p.1 = k'
      · rw [List.find?_cons_of_pos _ (by simpa using hpk'),
          List.find?_cons_of_pos _ (by simpa using hpk')]
      · rw [List.find?_cons_of_neg _ (by simpa using hpk'),
          List.find?_cons_of_neg _ (by simpa using hpk')]
        exact ih

theorem pyDictGet_set (d : List (String × String)) (k v k' : String) :
    pyDictGet (pyDictSet d k v) k' = if k' = k then v else pyDictGet d k' := by
  rw [pyDictSet]
  by_cases hany : d.any (fun p => p.1 == k) = true
  · rw [if_pos hany]
    by_cases hk' : k' = k
    · subst hk'
      rw [if_pos rfl, pyDictGet, pyDict_find?_map_self d k' v hany]
      rfl
    · rw [if_neg hk', pyDictGet, pyDict_find?_map_other d k v k' hk', pyDictGet]
  · rw [if_neg hany]
    have hnone : d.find? (fun p => p.1 == k) = none := by
      rw [List.find?_eq_none]
      intro x hx hbeq
      exact hany (List.any_eq_true.mpr ⟨x, hx, hbeq⟩)
    by_cases hk' : k' = k
    · subst hk'
      rw [if_pos rfl, pyDictGet, List.find?_append, hnone, Option.none_or,
        List.find?_cons_of_pos _ (by simp)]
      rfl
    · rw [if_neg hk', pyDictGet, List.find?_append]
      have hsing : ([(k, v)].find? (fun p => p.1 == k')) = none := by
        rw [List.find?_cons_of_neg _ (by simpa using Ne.symm hk')]
        rfl
      rw [hsing, pyDictGet]
      cases d.find? (fun p => p.1 == k') <;> rfl

theorem buildDateDicts_append_single (ids : List (String × String × String))
    (r : String × String × String) :
    buildDateDicts (ids ++ [r]) =
      (pyDictSet (buildDateDicts ids).1 r.1 r.2.1,
       pyDictSet (buildDateDicts ids).2 r.1 r.2.2) := by
  rw [buildDateDicts, List.foldl_append]
  rfl

theorem buildDateDicts_fst_get (ids : List (String × String × String)) (k : String) :
    pyDictGet (buildDateDicts ids).1 k = lastStartDate ids k := by
  induction ids using List.reverseRecOn with
  | nil => rfl
  | append_singleton l r ih =>
    rw [buildDateDicts_append_single, pyDictGet_set]
    by_cases hk : k = r.1
    · rw [if_pos hk, lastStartDate, List.filter_append,
        List.filter_cons_of_pos (by simpa using hk.symm)]
      simp [List.getLast?_concat]
    · rw [if_neg hk, ih, lastStartDate, lastStartDate, List.filter_append,
        List.filter_cons_of_neg (by simpa using fun h => hk h.symm)]
      simp

theorem buildDateDicts_snd_get (ids : List (String × String × String)) (k : String) :
    pyDictGet (buildDateDicts ids).2 k = lastEndDate ids k := by
  induction ids using List.reverseRecOn with
  | nil => rfl
  | append_singleton l r ih =>
    rw [buildDateDicts_append_single, pyDictGet_set]
    by_cases hk : k = r.1
    · rw [if_pos hk, lastEndDate, List.filter_append,
        List.filter_cons_of_pos (by simpa using hk.symm)]
      simp [List.getLast?_concat]
    · rw [if_neg hk, ih, lastEndDate, lastEndDate, List.filter_append,
        List.filter_cons_of_neg (by simpa using fun h => hk h.symm)]
      simp

/-- C10: with duplicated `service_id`s in the merged calendar, the id list
keeps one entry per row while the date dictionaries keep only the last row's
dates per id, so every recorded pair uses the last occurrence's dates and the
same ordered pair can be recorded repeatedly (counting against the 10-pair
cap).  The concrete run shows `(A, B)` recorded twice, and only because the
last `A` row's start date exceeds `B`'s end date — the first `A` row's start
date does not. -/
theorem C10_duplicate_service_ids :
    (∀ ids : List (String × String × String), (ids.map Prod.fst).length = ids.length) ∧
    (∀ (ids : List (String × String × String)) (k : String),
      pyDictGet (buildDateDicts ids).1 k = lastStartDate ids k ∧
      pyDictGet (buildDateDicts ids).2 k = lastEndDate ids k) ∧
    nonoverlappingPairs
        [("A", "20200101", "20200201"), ("A", "20300101", "20300201"),
         ("B", "20200101", "20200210")] =
      [("A", "B"), ("A", "B")] ∧
    pyStrGt "20200101" "20200210" = false ∧
    pyStrGt "20300101" "20200210" = true := by
  refine ⟨fun ids => List.length_map _ _, ?_, rfl, rfl, rfl⟩
  intro ids k
  exact ⟨buildDateDicts_fst_get ids k, buildDateDicts_snd_get ids k⟩

/-! ## The clock-time regex and time conversion -/

theorem timeBody_iff (cs : List Char) :
    timeBody cs = true ↔
      ∃ hd md sd : List Char,
        (hd.length = 1 ∨ hd.length = 2) ∧ md.length = 2 ∧ sd.length = 2 ∧
        (∀ c ∈ hd ++ md ++ sd, c.isDigit = true) ∧
        cs = hd ++ ':' :: (md ++ ':' :: sd) := by
  constructor
  · intro h
    unfold timeBody at h
    split at h
    · rename_i h1 c1 m1 m2 c2 s1 s2
      simp only [Bool.and_eq_true, beq_iff_eq] at h
      obtain ⟨⟨⟨⟨⟨⟨hd1, hc1⟩, hm1⟩, hm2⟩, hc2⟩, hs1⟩, hs2⟩ := h
      subst hc1
      subst hc2
      refine ⟨[h1], [m1, m2], [s1, s2], Or.inl rfl, rfl, rfl, ?_, rfl⟩
      intro c hc
      fin_cases hc <;> assumption
    · rename_i h1 h2 c1 m1 m2 c2 s1 s2
      simp only [Bool.and_eq_true, beq_iff_eq] at h
      obtain ⟨⟨⟨⟨⟨⟨⟨hd1, hd2⟩, hc1⟩, hm1⟩, hm2⟩, hc2⟩, hs1⟩, hs2⟩ := h
      subst hc1
      subst hc2
      refine ⟨[h1, h2], [m1, m2], [s1, s2], Or.inr rfl, rfl, rfl, ?_, rfl⟩
      intro c hc
      fin_cases hc <;> assumption
    · simp at h
  · rintro ⟨hd, md, sd, hhl, hml, hsl, hdig, rfl⟩
    obtain ⟨m1, m2, rfl⟩ := List.length_eq_two.mp hml
    obtain ⟨s1, s2, rfl⟩ := List.length_eq_two.mp hsl
    rcases hhl with h1 | h2
    · obtain ⟨a, rfl⟩ := List.length_eq_one.mp h1
      simp only [List.cons_append, List.nil_append]
      rw [show timeBody [a, ':', m1, m2, ':', s1, s2] =
        (a.isDigit && (':' : Char) == ':' && m1.isDigit && m2.isDigit &&
          (':' : Char) == ':' && s1.isDigit && s2.isDigit) from rfl]
      simp only [Bool.and_eq_true, beq_self_eq_true, and_true, true_and]
      simp only [List.mem_append, List.mem_cons, List.not_mem_nil, or_false] at hdig
      refine ⟨⟨⟨⟨hdig a ?_, hdig m1 ?_⟩, hdig m2 ?_⟩, hdig s1 ?_⟩, hdig s2 ?_⟩ <;> simp
    · obtain ⟨a, b, rfl⟩ := List.length_eq_two.mp h2
      simp only [List.cons_append, List.nil_append]
      rw [show timeBody [a, b, ':', m1, m2, ':', s1, s2] =
        (a.isDigit && b.isDigit && (':' : Char) == ':' && m1.isDigit && m2.isDigit &&
          (':' : Char) == ':' && s1.isDigit && s2.isDigit) from rfl]
      simp only [Bool.and_eq_true, beq_self_eq_true, and_true, true_and]
      simp only [List.mem_append, List.mem_cons, List.not_mem_nil, or_false] at hdig
      refine ⟨⟨⟨⟨⟨hdig a ?_, hdig b ?_⟩, hdig m1 ?_⟩, hdig m2 ?_⟩, hdig s1 ?_⟩,
        hdig s2 ?_⟩ <;> simp

theorem check_time_str_iff (s : String) :
    check_time_str s = true ↔ TimeShape s := by
  cases hsd : s.data with
  | nil =>
    have hck : check_time_str s = timeBody [] := by
      unfold check_time_str
      rw [hsd]
    rw [hck]
    constructor
    · intro h; simp [timeBody] at h
    · rintro ⟨neg, hd, md, sd, hhl, hml, hsl, hdig, heq⟩
      rw [hsd] at heq
      cases neg <;> simp at heq
  | cons c rest =>
    by_cases hc : c = '-'
    · subst hc
      have hck : check_time_str s = timeBody rest := by
        unfold check_time_str
        rw [hsd]
        split
        · rename_i r heq
          injection heq with he1 he2
          rw [he2]
        · rename_i hno
          exact (hno rest rfl).elim
      rw [hck, timeBody_iff]
      constructor
      · rintro ⟨hd, md, sd, hhl, hml, hsl, hdig, rfl⟩
        exact ⟨true, hd, md, sd, hhl, hml, hsl, hdig, by rw [hsd]; simp⟩
      · rintro ⟨neg, hd, md, sd, hhl, hml, hsl, hdig, heq⟩
        rw [hsd] at heq
        cases neg
        · simp only [Bool.false_eq_true, if_false, List.nil_append] at heq
          have hhd : hd ≠ [] := by
            intro hnil
            rw [hnil] at hhl
            simp at hhl
          obtain ⟨h0, hd', rfl⟩ := List.exists_cons_of_ne_nil hhd
          simp only [List.cons_append, List.cons.injEq] at heq
          obtain ⟨rfl, -⟩ := heq
          have hdd : ('-' : Char).isDigit = true := hdig '-' (by simp)
          simp at hdd
        · simp only [if_true, List.singleton_append, List.cons_append,
            List.cons.injEq] at heq
          obtain ⟨-, rfl⟩ := heq
          exact ⟨hd, md, sd, hhl, hml, hsl, hdig, rfl⟩
    · have hck : check_time_str s = timeBody (c :: rest) := by
        unfold check_time_str
        rw [hsd]
        split
        · rename_i r heq
          injection heq with he1 he2
          exact absurd he1 hc
        · rfl
      rw [hck, timeBody_iff]
      constructor
      · rintro ⟨hd, md, sd, hhl, hml, hsl, hdig, hshape⟩
        refine ⟨false, hd, md, sd, hhl, hml, hsl, hdig, ?_⟩
        rw [hsd, hshape]
        simp
      · rintro ⟨neg, hd, md, sd, hhl, hml, hsl, hdig, heq⟩
        rw [hsd] at heq
        cases neg
        · simp only [Bool.false_eq_true, if_false, List.nil_append] at heq
          exact ⟨hd, md, sd, hhl, hml, hsl, hdig, heq⟩
        · simp only [if_true, List.singleton_append, List.cons_append,
            List.cons.injEq] at heq
          exact absurd heq.1 hc

/-- C5: a time field matching `[-]?[H]H:MM:SS` (one or two hour digits,
hours unbounded) is replaced by the time parser's seconds value; a bare
numeric string is replaced by its float value; the empty string and every
other unparseable value are hard failures raising the uniform abort error
(the empty-string failure carrying the stop_times message).  Concrete runs:
`"08:05:00" → 29100`, `"25:00:00" → 90000`, `"100" → 100.0`. -/
theorem C5_time_field_conversion :
    (∀ s, check_time_str s = true ↔ TimeShape s) ∧
    (∀ gtfsDir colName fpath value,
      (∀ q, convert_time_field gtfsDir colName fpath value = Except.ok q ↔
        ((TimeShape (pyStrip value) ∧ q = str2sec (pyStrip value)) ∨
          (¬ TimeShape (pyStrip value) ∧ parsePyFloat (pyStrip value) = some q))) ∧
      ((∃ e, convert_time_field gtfsDir colName fpath value = Except.error e) ↔
        (¬ TimeShape (pyStrip value) ∧ parsePyFloat (pyStrip value) = none)) ∧
      (∀ e, convert_time_field gtfsDir colName fpath value = Except.error e →
        ∃ m, e = PyErr.custom m) ∧
      (pyStrip value = "" →
        convert_time_field gtfsDir colName fpath value =
          Except.error (PyErr.custom (emptyTimeMsg gtfsDir)))) ∧
    convert_time_field "d" "arrival_time" "p" "08:05:00" = Except.ok 29100 ∧
    convert_time_field "d" "start_time" "p" "25:00:00" = Except.ok 90000 ∧
    convert_time_field "d" "arrival_time" "p" "100" = Except.ok 100 := by
  refine ⟨check_time_str_iff, ?_, ?_, ?_, ?_⟩
  · intro dir col path v
    cases hck : check_time_str (pyStrip v) with
    | true =>
      have hsh : TimeShape (pyStrip v) := (check_time_str_iff _).mp hck
      have hconv : convert_time_field dir col path v =
          Except.ok (str2sec (pyStrip v)) := by
        simp [convert_time_field, hck]
      refine ⟨?_, ?_, ?_, ?_⟩
      · intro q
        rw [hconv]
        constructor
        · intro h
          exact Or.inl ⟨hsh, (Except.ok.inj h).symm⟩
        · rintro (⟨-, rfl⟩ | ⟨hns, -⟩)
          · rfl
          · exact absurd hsh hns
      · constructor
        · rintro ⟨e, he⟩
          rw [hconv] at he
          exact absurd he (by simp)
        · rintro ⟨hns, -⟩
          exact absurd hsh hns
      · intro e he
        rw [hconv] at he
        exact absurd he (by simp)
      · intro hemp
        rw [hemp] at hck
        exact absurd hck (by decide)
    | false =>
      have hns : ¬ TimeShape (pyStrip v) := by
        intro hsh
        have := (check_time_str_iff (pyStrip v)).mpr hsh
        rw [hck] at this
        exact Bool.noConfusion this
      by_cases hemp : pyStrip v = ""
      · have hconv : convert_time_field dir col path v =
            Except.error (.custom (emptyTimeMsg dir)) := by
          simp only [convert_time_field]
          rw [if_neg (by simp [hck]), if_pos hemp]
        have hpf : parsePyFloat (pyStrip v) = none := by rw [hemp]; rfl
        refine ⟨?_, ⟨fun _ => ⟨hns, hpf⟩, fun _ => ⟨_, hconv⟩⟩, ?_, fun _ => hconv⟩
        · intro q
          rw [hconv]
          constructor
          · intro h
            exact absurd h (by simp)
          · rintro (⟨hsh, -⟩ | ⟨-, hsome⟩)
            · exact absurd hsh hns
            · rw [hpf] at hsome
              exact Option.noConfusion hsome
        · intro e he
          rw [hconv] at he
          exact ⟨_, (Except.error.inj he).symm⟩
      · cases hpf : parsePyFloat (pyStrip v) with
        | some q' =>
          have hconv : convert_time_field dir col path v = Except.ok q' := by
            simp only [convert_time_field]
            rw [if_neg (by simp [hck]), if_neg hemp, hpf]
          refine ⟨?_, ?_, ?_, fun h => absurd h hemp⟩
          · intro q
            rw [hconv]
            constructor
            · intro h
              exact Or.inr ⟨hns, congrArg some (Except.ok.inj h)⟩
            · rintro (⟨hsh, -⟩ | ⟨-, hsome⟩)
              · exact absurd hsh hns
              · exact congrArg Except.ok (Option.some.inj hsome)
          · constructor
            · rintro ⟨e, he⟩
              rw [hconv] at he
              exact absurd he (by simp)
            · rintro ⟨-, hnone⟩
              exact Option.noConfusion hnone
          · intro e he
            rw [hconv] at he
            exact absurd he (by simp)
        | none =>
          have hconv : convert_time_field dir col path v =
              Except.error (.custom (invalidTimeMsg col path (pyStrip v))) := by
            simp only [convert_time_field]
            rw [if_neg (by simp [hck]), if_neg hemp, hpf]
          refine ⟨?_, ⟨fun _ => ⟨hns, rfl⟩, fun _ => ⟨_, hconv⟩⟩, ?_,
            fun h => absurd h hemp⟩
          · intro q
            rw [hconv]
            constructor
            · intro h
              exact absurd h (by simp)
            · rintro (⟨hsh, -⟩ | ⟨-, hsome⟩)
              · exact absurd hsh hns
              · exact Option.noConfusion hsome
          · intro e he
            rw [hconv] at he
            exact ⟨_, (Except.error.inj he).symm⟩
  · have h : convert_time_field "d" "arrival_time" "p" "08:05:00" =
        Except.ok ((29100 : Nat) : ℚ) := rfl
    rw [h]
    norm_num
  · have h : convert_time_field "d" "start_time" "p" "25:00:00" =
        Except.ok ((90000 : Nat) : ℚ) := rfl
    rw [h]
    norm_num
  · have h : convert_time_field "d" "arrival_time" "p" "100" =
        Except.ok (((100 : Nat) : ℚ) / 10 ^ (0 : Nat)) := rfl
    rw [h]
    norm_num

/-- Witness for C5 at the empty time value. -/
theorem C5_time_field_conversion_witness :
    convert_time_field "d" "c" "p" "" =
      Except.error (PyErr.custom (emptyTimeMsg "d")) :=
  (C5_time_field_conversion.2.1 "d" "c" "p" "").2.2.2 rfl

/-! ## The latitude/longitude check -/

theorem leadMatch_append_right (s : List Char) :
    ∀ t r : List Char, leadMatch s t = true → leadMatch s (t ++ r) = true := by
  induction s with
  | nil => intro t r _; simp [leadMatch]
  | cons a as ih =>
    intro t r h
    cases t with
    | nil => simp [leadMatch] at h
    | cons b bs =>
      simp only [leadMatch, Bool.and_eq_true] at h ⊢
      exact ⟨h.1, ih bs r h.2⟩

theorem hasSub_nil (r : List Char) : hasSub [] r = true := by
  cases r <;> simp [hasSub, leadMatch, List.isEmpty]

theorem hasSub_append_right (sub r : List Char) :
    ∀ x : List Char, hasSub sub x = true → hasSub sub (x ++ r) = true := by
  intro x
  induction x with
  | nil =>
    intro h
    simp only [hasSub, List.isEmpty_iff] at h
    rw [h, List.nil_append]
    exact hasSub_nil r
  | cons c cs ih =>
    intro h
    simp only [hasSub, Bool.or_eq_true] at h ⊢
    rcases h with h | h
    · exact Or.inl (leadMatch_append_right sub (c :: cs) r h)
    · exact Or.inr (ih h)

theorem strMentions_seed (a sid : String) : strMentions (a ++ sid) sid = true := by
  rw [strMentions, String.data_append]
  have h := hasSub_append_mid sid.data [] a.data
  simpa using h

theorem strMentions_append_right (msg r sid : String)
    (h : strMentions msg sid = true) : strMentions (msg ++ r) sid = true := by
  rw [strMentions, String.data_append]
  exact hasSub_append_right sid.data r.data msg.data h

/-- C6: the stops lat/lon check errors exactly when `stop_lat` or `stop_lon`
fails to parse as a number, or the parsed `stop_lat` leaves `[-90, 90]`, or
the parsed `stop_lon` leaves `[-180, 180]` (both interval checks are
inclusive); a passing row is returned unchanged; every failure message names
the row's `stop_id`; and concretely a row with `stop_lat="95.0"` aborts with
the coordinate-range error while `stop_lat="40.0"` passes unchanged. -/
theorem C6_latlon_check :
    (∀ col_names fname row,
      (∀ out, check_latlon_cols col_names fname row = Except.ok out → out = row) ∧
      ((∃ e, check_latlon_cols col_names fname row = Except.error e) ↔
        (parsePyFloat (row.getD (col_names.indexOf "stop_lat") "") = none ∨
         parsePyFloat (row.getD (col_names.indexOf "stop_lon") "") = none ∨
         (∃ lat, parsePyFloat (row.getD (col_names.indexOf "stop_lat") "") = some lat ∧
           ¬ (-90 ≤ lat ∧ lat ≤ 90)) ∨
         (∃ lon, parsePyFloat (row.getD (col_names.indexOf "stop_lon") "") = some lon ∧
           ¬ (-180 ≤ lon ∧ lon ≤ 180)))) ∧
      (∀ e, check_latlon_cols col_names fname row = Except.error e →
        ∃ m, e = PyErr.custom m ∧
          strMentions m (row.getD (col_names.indexOf "stop_id") "") = true)) ∧
    check_latlon_cols ["stop_id", "stop_lat", "stop_lon"] "stops.txt"
        ["s1", "95.0", "10.0"] =
      Except.error (PyErr.custom (latRangeMsg "s1" "stops.txt" "95.0")) ∧
    check_latlon_cols ["stop_id", "stop_lat", "stop_lon"] "stops.txt"
        ["s1", "40.0", "10.0"] =
      Except.ok ["s1", "40.0", "10.0"] := by
  refine ⟨?_, ?_, ?_⟩
  · intro col_names fname row
    cases hlat : parsePyFloat (row.getD (col_names.indexOf "stop_lat") "") with
    | none =>
      have hconv : check_latlon_cols col_names fname row =
          Except.error (.custom (latNonNumMsg
            (row.getD (col_names.indexOf "stop_id") "") fname
            (row.getD (col_names.indexOf "stop_lat") ""))) := by
        simp only [check_latlon_cols]
        rw [hlat]
      refine ⟨?_, ⟨fun _ => Or.inl rfl, fun _ => ⟨_, hconv⟩⟩, ?_⟩
      · intro out h
        rw [hconv] at h
        exact absurd h (by simp)
      · intro e he
        rw [hconv] at he
        refine ⟨_, (Except.error.inj he).symm, ?_⟩
        rw [latNonNumMsg]
        repeat
          first
            | exact strMentions_seed _ _
            | apply strMentions_append_right
    | some lat =>
      cases hlon : parsePyFloat (row.getD (col_names.indexOf "stop_lon") "") with
      | none =>
        have hconv : check_latlon_cols col_names fname row =
            Except.error (.custom (lonNonNumMsg
              (row.getD (col_names.indexOf "stop_id") "") fname
              (row.getD (col_names.indexOf "stop_lon") ""))) := by
          simp only [check_latlon_cols]
          rw [hlat, hlon]
        refine ⟨?_, ⟨fun _ => Or.inr (Or.inl rfl), fun _ => ⟨_, hconv⟩⟩, ?_⟩
        · intro out h
          rw [hconv] at h
          exact absurd h (by simp)
        · intro e he
          rw [hconv] at he
          refine ⟨_, (Except.error.inj he).symm, ?_⟩
          rw [lonNonNumMsg]
          repeat
          first
            | exact strMentions_seed _ _
            | apply strMentions_append_right
      | some lon =>
        by_cases hr1 : -90 ≤ lat ∧ lat ≤ 90
        · by_cases hr2 : -180 ≤ lon ∧ lon ≤ 180
          · have hconv : check_latlon_cols col_names fname row = Except.ok row := by
              simp only [check_latlon_cols, hlat, hlon]
              rw [if_neg (not_not_intro hr1), if_neg (not_not_intro hr2)]
            refine ⟨?_, ⟨?_, ?_⟩, ?_⟩
            · intro out h
              rw [hconv] at h
              exact (Except.ok.inj h).symm
            · rintro ⟨e, he⟩
              rw [hconv] at he
              exact absurd he (by simp)
            · rintro (h | h | ⟨lat', hl', hr'⟩ | ⟨lon', hl', hr'⟩)
              · exact Option.noConfusion h
              · exact Option.noConfusion h
              · rw [Option.some.inj hl'] at hr1
                exact absurd hr1 hr'
              · rw [Option.some.inj hl'] at hr2
                exact absurd hr2 hr'
            · intro e he
              rw [hconv] at he
              exact absurd he (by simp)
          · have hconv : check_latlon_cols col_names fname row =
                Except.error (.custom (lonRangeMsg
                  (row.getD (col_names.indexOf "stop_id") "") fname
                  (row.getD (col_names.indexOf "stop_lon") ""))) := by
              simp only [check_latlon_cols, hlat, hlon]
              rw [if_neg (not_not_intro hr1), if_pos hr2]
            refine ⟨?_, ⟨fun _ => Or.inr (Or.inr (Or.inr ⟨lon, rfl, hr2⟩)),
              fun _ => ⟨_, hconv⟩⟩, ?_⟩
            · intro out h
              rw [hconv] at h
              exact absurd h (by simp)
            · intro e he
              rw [hconv] at he
              refine ⟨_, (Except.error.inj he).symm, ?_⟩
              rw [lonRangeMsg]
              repeat
          first
            | exact strMentions_seed _ _
            | apply strMentions_append_right
        · have hconv : check_latlon_cols col_names fname row =
              Except.error (.custom (latRangeMsg
                (row.getD (col_names.indexOf "stop_id") "") fname
                (row.getD (col_names.indexOf "stop_lat") ""))) := by
            simp only [check_latlon_cols, hlat, hlon]
            rw [if_pos hr1]
          refine ⟨?_, ⟨fun _ => Or.inr (Or.inr (Or.inl ⟨lat, rfl, hr1⟩)),
            fun _ => ⟨_, hconv⟩⟩, ?_⟩
          · intro out h
            rw [hconv] at h
            exact absurd h (by simp)
          · intro e he
            rw [hconv] at he
            refine ⟨_, (Except.error.inj he).symm, ?_⟩
            rw [latRangeMsg]
            repeat
          first
            | exact strMentions_seed _ _
            | apply strMentions_append_right
  · have e1 : check_latlon_cols ["stop_id", "stop_lat", "stop_lon"] "stops.txt"
        ["s1", "95.0", "10.0"] =
        (if ¬ (-90 ≤ (((950 : Nat) : ℚ) / 10 ^ (1 : Nat)) ∧
              (((950 : Nat) : ℚ) / 10 ^ (1 : Nat)) ≤ 90) then
          Except.error (.custom (latRangeMsg "s1" "stops.txt" "95.0"))
        else if ¬ (-180 ≤ (((100 : Nat) : ℚ) / 10 ^ (1 : Nat)) ∧
              (((100 : Nat) : ℚ) / 10 ^ (1 : Nat)) ≤ 180) then
          Except.error (.custom (lonRangeMsg "s1" "stops.txt" "10.0"))
        else Except.ok ["s1", "95.0", "10.0"]) := rfl
    rw [e1, if_pos (by norm_num)]
  · have e2 : check_latlon_cols ["stop_id", "stop_lat", "stop_lon"] "stops.txt"
        ["s1", "40.0", "10.0"] =
        (if ¬ (-90 ≤ (((400 : Nat) : ℚ) / 10 ^ (1 : Nat)) ∧
              (((400 : Nat) : ℚ) / 10 ^ (1 : Nat)) ≤ 90) then
          Except.error (.custom (latRangeMsg "s1" "stops.txt" "40.0"))
        else if ¬ (-180 ≤ (((100 : Nat) : ℚ) / 10 ^ (1 : Nat)) ∧
              (((100 : Nat) : ℚ) / 10 ^ (1 : Nat)) ≤ 180) then
          Except.error (.custom (lonRangeMsg "s1" "stops.txt" "10.0"))
        else Except.ok ["s1", "40.0", "10.0"]) := rfl
    rw [e2, if_neg (by norm_num), if_neg (by norm_num)]

/-- Witness for C6: the out-of-range latitude `95.0` yields an error. -/
theorem C6_latlon_check_witness :
    ∃ e, check_latlon_cols ["stop_id", "stop_lat", "stop_lon"] "stops.txt"
        ["s1", "95.0", "10.0"] = Except.error e :=
  (C6_latlon_check.1 ["stop_id", "stop_lat", "stop_lon"] "stops.txt"
      ["s1", "95.0", "10.0"]).2.1.mpr
    (Or.inr (Or.inr (Or.inl ⟨((950 : Nat) : ℚ) / 10 ^ (1 : Nat), rfl, by norm_num⟩)))

end Sqlize
